import Mathlib

/-!
Verification of the segmentation-evaluation core: the WindowDiff metric
(src/src/python/main/segeval/window/WindowDiff.py) and the Fleiss-style Pi
inter-coder agreement coefficient (src/segeval/agreement/pi.py).

Segmentations are modelled in position form as lists of natural-number
segment labels; in mass form as lists of natural-number segment lengths.
Exact arithmetic is modelled with the rationals; the Decimal failure modes
of the Python code (division by zero, missing dictionary keys, shape
exceptions) are modelled with an explicit error type and the Except monad.
-/

/-- Errors raised by the embedded code, mirroring the Python exceptions:
dictionary key lookup failure, indexing an empty collection, the plain
`Exception` raised by the Pi shape check, `SegmentationMetricError`,
the malformed-mass error of the mass-to-position conversion, and the
division-by-zero family of Decimal errors. -/
inductive PyError : Type
  | keyError (key : String)
  | indexError
  | exception (msg : String)
  | segmentationMetricError (msg : String)
  | malformedSegmentationError
  | divisionByZero
deriving DecidableEq, Repr

/-- Boundary indicator sequence of a position sequence: one Boolean per pair
of adjacent units, true iff the two segment labels differ (a boundary). -/
def boundaries (p : List ℕ) : List Bool :=
  (p.zip p.tail).map fun q => q.1 != q.2

/-- Number of boundaries in a position sequence: adjacent unit pairs whose
labels differ. -/
def countBoundaries (p : List ℕ) : ℕ :=
  (boundaries p).count true

/-- Expansion of a mass sequence into a position sequence: mass number i
(counting from 0) becomes that many copies of the label i + 1. -/
def massesToPositions (masses : List ℕ) : List ℕ :=
  (masses.enum.map fun im => List.replicate im.2 (im.1 + 1)).flatten

/-- Modelled from the spec (section 4.1): `convert_masses_to_positions` is not
under src/; per the spec it expands each mass into that many repeated copies
of a strictly increasing segment label starting at 1 and fails with
`MalformedSegmentationError` if any mass is not positive. -/
def convert_masses_to_positions (masses : List ℕ) : Except PyError (List ℕ) :=
  if masses.any fun m => m = 0 then throw PyError.malformedSegmentationError
  else pure (massesToPositions masses)

/-- Modelled from the spec (section 4.4): `compute_window_size` is not under
src/; per the spec the window size is half the mean reference segment length,
rounded to the nearest integer (halves upward), with a floor of 2.  The
number of segments of a position sequence is its boundary count plus one,
and rounding length / (2 * segments) to the nearest integer is the floor of
(length + segments) / (2 * segments). -/
def compute_window_size (referencePositions : List ℕ) : ℕ :=
  let segments := countBoundaries referencePositions + 1
  max 2 ((referencePositions.length + segments) / (2 * segments))

/-- The window loop of `window_diff` (WindowDiff.py lines 100-115): slide a
window of `ws` consecutive units over the zipped unit pairs and count the
window start offsets at which the reference-side boundary count differs from
the hypothesis-side boundary count. -/
def windowMismatch (unitsRefHyp : List (ℕ × ℕ)) (ws : ℕ) : ℕ :=
  (List.range (unitsRefHyp.length + 1 - ws)).countP fun i =>
    let window := (unitsRefHyp.drop i).take ws
    countBoundaries (window.map Prod.fst) != countBoundaries (window.map Prod.snd)

/-- The post-conversion part of `window_diff` (WindowDiff.py lines 81-124):
length check, default window size, optional Lamprier et al. 2007 phantom
padding with sentinel label 0 on both ends, the window mismatch count, and
the final division by n minus the window size, with n the reference length
plus one, further increased by the one-sided padding length when the fix is
on.  A zero divisor raises the Decimal division error. -/
def windowDiffPositions (hypothesisPositions referencePositions : List ℕ)
    (windowSize : Option ℕ) (oneMinus lamprierFix : Bool) : Except PyError ℚ := do
  if referencePositions.length ≠ hypothesisPositions.length then
    throw (PyError.segmentationMetricError
      "Reference and hypothesis segmentations differ in length.")
  let ws := match windowSize with
    | some w => w
    | none => compute_window_size referencePositions
  let phantomSize := ws - 1
  let unitsRefHyp :=
    if lamprierFix then
      (List.replicate phantomSize 0 ++ referencePositions ++ List.replicate phantomSize 0).zip
        (List.replicate phantomSize 0 ++ hypothesisPositions ++ List.replicate phantomSize 0)
    else referencePositions.zip hypothesisPositions
  let sumDifferences := windowMismatch unitsRefHyp ws
  let n : ℤ := (referencePositions.length : ℤ) + 1 +
    (if lamprierFix then (ws : ℤ) - 1 else 0)
  if n - (ws : ℤ) = 0 then throw PyError.divisionByZero
  let winDiff : ℚ := (sumDifferences : ℚ) / ((n - (ws : ℤ) : ℤ) : ℚ)
  return if oneMinus then (1 : ℚ) - winDiff else winDiff

/-- Embedding of `window_diff` (WindowDiff.py lines 41-124): optional
conversion of both inputs from masses to positions (reference first, as in
the source), then the positional computation. -/
def window_diff (hypothesisPositions referencePositions : List ℕ)
    (windowSize : Option ℕ) (oneMinus lamprierFix convertFromMasses : Bool) :
    Except PyError ℚ := do
  if convertFromMasses then
    let ref ← convert_masses_to_positions referencePositions
    let hyp ← convert_masses_to_positions hypothesisPositions
    windowDiffPositions hyp ref windowSize oneMinus lamprierFix
  else
    windowDiffPositions hypothesisPositions referencePositions windowSize oneMinus lamprierFix

/-- A multi-coder dataset for the Pi coefficient: the outer list enumerates
coders, each coder carries the list of its items, each item a mass sequence.
Items at the same index across coders are codings of the same item. -/
abbrev Dataset := List (List (List ℕ))

/-- Keyword arguments reaching `__fleiss_pi_linear__`: the one key it reads
directly is `return_parts`; `none` models the key being absent from the
dictionary. -/
structure PiKwargs where
  return_parts : Option Bool

/-- Modelled from the spec (section 4.3 steps 1 and 3):
`__actual_agreement_linear__` is not under src/.  For one coder on one item,
the pair of the boundary count of the position sequence and the total number
of possible boundary positions (unit count minus one). -/
def coderBoundaryPair (itemMasses : List ℕ) : ℕ × ℕ :=
  let p := massesToPositions itemMasses
  (countBoundaries p, p.length - 1)

/-- Modelled from the spec (section 4.3 step 1): for one unordered pair of
coders on one item, the number of boundary positions on which the two
position sequences agree (both a boundary, or both not) and the total number
of compared boundary positions. -/
def pairAgreement (aMasses bMasses : List ℕ) : ℕ × ℕ :=
  let ba := boundaries (massesToPositions aMasses)
  let bb := boundaries (massesToPositions bMasses)
  ((ba.zip bb).countP (fun q => q.1 == q.2), (ba.zip bb).length)

/-- All unordered pairs of elements of a list, in order of first occurrence. -/
def unorderedPairs : List α → List (α × α)
  | [] => []
  | x :: xs => (xs.map fun y => (x, y)) ++ unorderedPairs xs

/-- Modelled from the spec (section 4.3 step 1): the numerator and
denominator observations accumulated over every unordered coder pair and
every item, as returned by `__actual_agreement_linear__`. -/
def agreementObservations (d : Dataset) : List (ℕ × ℕ) :=
  (unorderedPairs d).flatMap fun cp =>
    (cp.1.zip cp.2).map fun it => pairAgreement it.1 it.2

/-- Monadic map over a list in the Except monad, stopping at the first
error, used to model loops that can raise. -/
def exceptMapM (f : α → Except PyError β) : List α → Except PyError (List β)
  | [] => pure []
  | x :: xs => do
    let y ← f x
    let ys ← exceptMapM f xs
    pure (y :: ys)

/-- The flat list, coder-major, of every (coder, item) boundary-count pair
recorded by the agreement engine (`coders_boundaries` in pi.py). -/
def obsPairs (d : Dataset) : List (ℕ × ℕ) :=
  d.flatMap fun coder => coder.map coderBoundaryPair

/-- The per-(coder, item) chance probabilities of pi.py lines 28-33: for every
coder and every item, the boundary count divided by the total number of
boundary positions, raising the Decimal division error when the latter is
zero (a single-unit item). -/
def pESegs (d : Dataset) : Except PyError (List ℚ) :=
  exceptMapM
    (fun bt => if bt.2 = 0 then throw PyError.divisionByZero
               else pure ((bt.1 : ℚ) / (bt.2 : ℚ)))
    (obsPairs d)

/-- Embedding of `__fleiss_pi_linear__` (pi.py lines 11-43): read the
mandatory `return_parts` key, take the item count of the first coder (an
index error on an empty dataset), check every coder has that many items,
aggregate the agreement observations, compute the observed agreement over
global sums, the flat mean of the per-observation chance probabilities, its
square as the expected agreement, then the chance-corrected coefficient; the
result is the pair of parts or the coefficient per `return_parts`. -/
def fleiss_pi_linear (itemsMasses : Dataset) (kwargs : PiKwargs) :
    Except PyError (ℚ ⊕ ℚ × ℚ) := do
  let returnParts ← match kwargs.return_parts with
    | none => throw (PyError.keyError "return_parts")
    | some b => pure b
  match itemsMasses with
  | [] => throw PyError.indexError
  | coder0 :: _ =>
    let numItems := coder0.length
    if itemsMasses.any fun coderSegs => coderSegs.length ≠ numItems then
      throw (PyError.exception "Unequal number of items contained.")
    let obs := agreementObservations itemsMasses
    let sumNumerators := (obs.map Prod.fst).sum
    let sumDenominators := (obs.map Prod.snd).sum
    if sumDenominators = 0 then throw PyError.divisionByZero
    let aA : ℚ := (sumNumerators : ℚ) / (sumDenominators : ℚ)
    let pes ← pESegs itemsMasses
    if pes.length = 0 then throw PyError.divisionByZero
    let peSeg : ℚ := pes.sum / (pes.length : ℚ)
    let aE : ℚ := peSeg * peSeg
    if (1 : ℚ) - aE = 0 then throw PyError.divisionByZero
    let piCoeff : ℚ := (aA - aE) / ((1 : ℚ) - aE)
    if returnParts then return Sum.inr (aA, aE) else return Sum.inl piCoeff

/-- Formula of the claims (spec section 4.3 step 4): the flat list, over every
(coder, item) observation, of that coder s boundary count on that item
divided by the total number of boundary positions of that item. -/
def boundaryRatios (d : Dataset) : List ℚ :=
  (obsPairs d).map fun bt => (bt.1 : ℚ) / (bt.2 : ℚ)

/-- Formula of the claims: `P_e_seg` as the flat arithmetic mean of the
per-(coder, item) chance probabilities, not weighted by item size. -/
def peSegSpec (d : Dataset) : ℚ :=
  (boundaryRatios d).sum / ((boundaryRatios d).length : ℚ)

/-- Formula of the claims: chance-expected agreement, the square of
`P_e_seg`. -/
def aESpec (d : Dataset) : ℚ := peSegSpec d * peSegSpec d

/-- Formula of the claims: observed agreement as the sum of all numerators
divided by the sum of all denominators, over the global sums. -/
def aASpec (d : Dataset) : ℚ :=
  (((agreementObservations d).map Prod.fst).sum : ℚ) /
    (((agreementObservations d).map Prod.snd).sum : ℚ)

/-- The alternative aggregation that claim C4 rules out: the arithmetic mean
of the per-pair, per-item agreement ratios. -/
def meanPairRatios (d : Dataset) : ℚ :=
  (((agreementObservations d).map fun nd => (nd.1 : ℚ) / (nd.2 : ℚ)).sum) /
    ((agreementObservations d).length : ℚ)

/-- Formula of claim C2: the sentinel units added to each end of a sequence
when the Lamprier et al. 2007 fix is applied: window size minus one units
with one constant label. -/
def sentinelPad (ws : ℕ) : List ℕ := List.replicate (ws - 1) 0

/-- Formula of claim C2: a sequence padded on both ends with the sentinel
units. -/
def padded (ws : ℕ) (p : List ℕ) : List ℕ := sentinelPad ws ++ p ++ sentinelPad ws

/-- Formula of claim C2, phrased over boundary indicator sequences: the
number of window offsets at which the reference window and the hypothesis
window contain different numbers of boundaries, a window covering the
window-size minus one boundary positions starting at its offset. -/
def specMismatchCount (ref hyp : List ℕ) (ws : ℕ) : ℕ :=
  (List.range (ref.length + 1 - ws)).countP fun i =>
    (((boundaries ref).drop i).take (ws - 1)).count true !=
      (((boundaries hyp).drop i).take (ws - 1)).count true

/-- Binding a success in the Except monad applies the continuation. -/
theorem exceptBindOk {α β : Type} (a : α) (f : α → Except PyError β) :
    (Except.ok a : Except PyError α) >>= f = f a := rfl

/-- Binding a pure value in the Except monad applies the continuation. -/
theorem exceptPureBind {α β : Type} (a : α) (f : α → Except PyError β) :
    (pure a : Except PyError α) >>= f = f a := rfl

/-- If the function succeeds on every element, the monadic map succeeds with
the pointwise results. -/
theorem exceptMapM_ok {α β : Type} (f : α → Except PyError β) (g : α → β)
    (l : List α) (h : ∀ x ∈ l, f x = Except.ok (g x)) :
    exceptMapM f l = Except.ok (l.map g) := by
  induction l with
  | nil => rfl
  | cons x xs ih =>
    have hx : f x = Except.ok (g x) := h x (List.mem_cons_self x xs)
    have hxs : exceptMapM f xs = Except.ok (xs.map g) :=
      ih fun y hy => h y (List.mem_cons_of_mem x hy)
    simp [exceptMapM, hx, hxs, exceptBindOk]

/-- The per-observation chance probability loop succeeds, with the values of
`boundaryRatios`, whenever no item is degenerate (every item has at least one
potential boundary position). -/
theorem pESegs_ok (d : Dataset)
    (ht : ∀ coder ∈ d, ∀ item ∈ coder, (coderBoundaryPair item).2 ≠ 0) :
    pESegs d = Except.ok (boundaryRatios d) := by
  unfold pESegs boundaryRatios
  rw [exceptMapM_ok _ (fun bt => ((bt.1 : ℚ) / (bt.2 : ℚ)))]
  intro bt hbt
  simp only [obsPairs, List.mem_flatMap, List.mem_map] at hbt
  obtain ⟨coder, hcoder, item, hitem, rfl⟩ := hbt
  rw [if_neg (ht coder hcoder item hitem)]
  rfl

/-- Evaluation of `__fleiss_pi_linear__` on a well-shaped, non-degenerate
dataset: it reaches the final division and produces the spec formulas, or the
division error exactly when the expected agreement is one. -/
theorem fleiss_pi_linear_eval (d : Dataset) (rp : Bool)
    (hne : d ≠ [])
    (hshape : ∀ c ∈ d, c.length = (d.headD []).length)
    (ht : ∀ coder ∈ d, ∀ item ∈ coder, (coderBoundaryPair item).2 ≠ 0)
    (hden : ((agreementObservations d).map Prod.snd).sum ≠ 0)
    (hobs : boundaryRatios d ≠ []) :
    fleiss_pi_linear d ⟨some rp⟩ =
      if (1 : ℚ) - aESpec d = 0 then Except.error PyError.divisionByZero
      else if rp then Except.ok (Sum.inr (aASpec d, aESpec d))
      else Except.ok (Sum.inl ((aASpec d - aESpec d) / ((1 : ℚ) - aESpec d))) := by
  obtain ⟨coder0, rest, rfl⟩ : ∃ c r, d = c :: r := by
    cases d with
    | nil => exact absurd rfl hne
    | cons c r => exact ⟨c, r, rfl⟩
  have hany : ((coder0 :: rest).any fun coderSegs =>
      coderSegs.length ≠ coder0.length) = false := by
    simp only [List.any_eq_false, decide_eq_true_eq]
    intro c hc
    simpa using hshape c hc
  have hpes : pESegs (coder0 :: rest) = Except.ok (boundaryRatios (coder0 :: rest)) :=
    pESegs_ok _ ht
  have hlen : (boundaryRatios (coder0 :: rest)).length ≠ 0 :=
    fun h => hobs (List.length_eq_zero.mp h)
  simp only [fleiss_pi_linear, exceptPureBind, exceptBindOk, hany, hpes, hden, hlen,
    Bool.false_eq_true, if_false, ite_false, aASpec, peSegSpec, aESpec]
  split
  · rfl
  · cases rp <;> rfl

/-- C1: for every valid multi-coder dataset (well shaped, no degenerate
division: no single-unit item, a nonzero global denominator sum, at least one
observation, and an expected agreement other than one), the Pi computation
returns (A_a - A_e) / (1 - A_e), where A_e is the square of the flat
arithmetic mean, over every (coder, item) observation, of that observation s
boundary count divided by its total boundary positions, not weighted by item
size. -/
theorem fleiss_pi_formula (d : Dataset)
    (hne : d ≠ [])
    (hshape : ∀ c ∈ d, c.length = (d.headD []).length)
    (ht : ∀ coder ∈ d, ∀ item ∈ coder, (coderBoundaryPair item).2 ≠ 0)
    (hden : ((agreementObservations d).map Prod.snd).sum ≠ 0)
    (hobs : boundaryRatios d ≠ [])
    (hae : aESpec d ≠ 1) :
    fleiss_pi_linear d ⟨some false⟩ =
      Except.ok (Sum.inl ((aASpec d - aESpec d) / ((1 : ℚ) - aESpec d))) := by
  rw [fleiss_pi_linear_eval d false hne hshape ht hden hobs,
    if_neg (fun h => hae (sub_eq_zero.mp h).symm)]
  rfl

/-- Witness for C1: two coders in perfect agreement on two ten-unit items. -/
theorem fleiss_pi_formula_witness :
    fleiss_pi_linear [[[5,5],[2,8]], [[5,5],[2,8]]] ⟨some false⟩ =
      Except.ok (Sum.inl ((aASpec [[[5,5],[2,8]], [[5,5],[2,8]]] -
        aESpec [[[5,5],[2,8]], [[5,5],[2,8]]]) /
        ((1 : ℚ) - aESpec [[[5,5],[2,8]], [[5,5],[2,8]]]))) :=
  fleiss_pi_formula [[[5,5],[2,8]], [[5,5],[2,8]]]
    (by decide) (by decide) (by decide) (by decide) (by decide)
    (by
      have h : obsPairs [[[5,5],[2,8]], [[5,5],[2,8]]] = [(1,9),(1,9),(1,9),(1,9)] := by
        decide
      unfold aESpec peSegSpec boundaryRatios
      rw [h]
      norm_num)

/-- C3: whenever two coders of a dataset report different numbers of items,
the Pi computation fails with the exception carrying the message
"Unequal number of items contained.".  The theorem holds for every such
dataset, in particular for datasets on which the numeric agreement pass
would itself fail or succeed: the shape check precedes all numeric work. -/
theorem fleiss_pi_shape_error (d : Dataset) (b : Bool) (c1 c2 : List (List ℕ))
    (h1 : c1 ∈ d) (h2 : c2 ∈ d) (hne : c1.length ≠ c2.length) :
    fleiss_pi_linear d ⟨some b⟩ =
      Except.error (PyError.exception "Unequal number of items contained.") := by
  cases d with
  | nil => cases h1
  | cons coder0 rest =>
    have hany : ((coder0 :: rest).any fun coderSegs =>
        coderSegs.length ≠ coder0.length) = true := by
      simp only [List.any_eq_true, decide_eq_true_eq]
      by_cases h : c1.length = coder0.length
      · exact ⟨c2, h2, fun hc => hne (h.trans hc.symm)⟩
      · exact ⟨c1, h1, h⟩
    simp only [fleiss_pi_linear, exceptPureBind, hany, if_true, ite_true]
    rfl

/-- Witness for C3: one coder with three items, another with four (the spec s
own example of a shape violation). -/
theorem fleiss_pi_shape_error_witness :
    fleiss_pi_linear [[[2],[2],[2]], [[2],[2],[2],[2]]] ⟨some false⟩ =
      Except.error (PyError.exception "Unequal number of items contained.") :=
  fleiss_pi_shape_error [[[2],[2],[2]], [[2],[2],[2],[2]]] false
    [[2],[2],[2]] [[2],[2],[2],[2]] (by decide) (by decide) (by decide)

/-- C4: on every valid dataset the observed agreement returned by the Pi
computation is the sum of all per-pair, per-item numerators divided by the
sum of all denominators, computed over the global sums; and this is not the
mean of the per-pair ratios, as the two disagree on a concrete dataset of one
small and one large item. -/
theorem fleiss_pi_aA_global_sums :
    (∀ (d : Dataset), d ≠ [] → (∀ c ∈ d, c.length = (d.headD []).length) →
      (∀ coder ∈ d, ∀ item ∈ coder, (coderBoundaryPair item).2 ≠ 0) →
      ((agreementObservations d).map Prod.snd).sum ≠ 0 →
      boundaryRatios d ≠ [] → aESpec d ≠ 1 →
      fleiss_pi_linear d ⟨some true⟩ = Except.ok (Sum.inr (aASpec d, aESpec d))) ∧
    aASpec [[[2],[5]], [[1,1],[5]]] ≠ meanPairRatios [[[2],[5]], [[1,1],[5]]] := by
  constructor
  · intro d hne hshape ht hden hobs hae
    rw [fleiss_pi_linear_eval d true hne hshape ht hden hobs,
      if_neg (fun h => hae (sub_eq_zero.mp h).symm)]
    rfl
  · have h : agreementObservations [[[2],[5]], [[1,1],[5]]] = [(0,1),(4,4)] := by decide
    unfold aASpec meanPairRatios
    rw [h]
    norm_num

/-- Witness for C4: the global-sum observed agreement is returned as a part
on the concrete two-coder dataset. -/
theorem fleiss_pi_aA_global_sums_witness :
    fleiss_pi_linear [[[2],[5]], [[1,1],[5]]] ⟨some true⟩ =
      Except.ok (Sum.inr (aASpec [[[2],[5]], [[1,1],[5]]],
        aESpec [[[2],[5]], [[1,1],[5]]])) :=
  fleiss_pi_aA_global_sums.1 [[[2],[5]], [[1,1],[5]]]
    (by decide) (by decide) (by decide) (by decide) (by decide)
    (by
      have h : obsPairs [[[2],[5]], [[1,1],[5]]] = [(0,1),(0,4),(1,1),(0,4)] := by decide
      unfold aESpec peSegSpec boundaryRatios
      rw [h]
      norm_num)

/-- Counterexample to C6 as stated: on the dataset with a single coder and a
single two-unit item, the expected agreement is 0, not 1, yet the Pi
computation fails with the division error (the global denominator sum is
empty), so failure is not equivalent to A_e = 1. -/
theorem fleiss_pi_fails_despite_aE_ne_one :
    fleiss_pi_linear [[[2]]] ⟨some false⟩ = Except.error PyError.divisionByZero ∧
      aESpec [[[2]]] ≠ 1 := by
  constructor
  · rfl
  · have h : obsPairs [[[2]]] = [(0,1)] := by decide
    unfold aESpec peSegSpec boundaryRatios
    rw [h]
    norm_num

/-- C6 as amended: restricted to datasets on which every intermediate
division is well defined (well shaped, no single-unit item, nonzero global
denominator sum, at least one observation), the Pi computation fails with the
division error exactly when A_e equals 1, and returns the finished
coefficient whenever A_e differs from 1. -/
theorem fleiss_pi_error_iff_aE_one (d : Dataset)
    (hne : d ≠ [])
    (hshape : ∀ c ∈ d, c.length = (d.headD []).length)
    (ht : ∀ coder ∈ d, ∀ item ∈ coder, (coderBoundaryPair item).2 ≠ 0)
    (hden : ((agreementObservations d).map Prod.snd).sum ≠ 0)
    (hobs : boundaryRatios d ≠ []) :
    (fleiss_pi_linear d ⟨some false⟩ = Except.error PyError.divisionByZero ↔
      aESpec d = 1) ∧
    (aESpec d ≠ 1 →
      fleiss_pi_linear d ⟨some false⟩ =
        Except.ok (Sum.inl ((aASpec d - aESpec d) / ((1 : ℚ) - aESpec d)))) := by
  have he := fleiss_pi_linear_eval d false hne hshape ht hden hobs
  by_cases haE : aESpec d = 1
  · rw [he, if_pos (by rw [haE]; ring)]
    exact ⟨⟨fun _ => haE, fun _ => rfl⟩, fun h => absurd haE h⟩
  · rw [he, if_neg (fun h => haE (sub_eq_zero.mp h).symm)]
    exact ⟨⟨fun h => Except.noConfusion h, fun h => absurd h haE⟩, fun _ => rfl⟩

/-- Witness for the amended C6: two coders, one two-unit item each; the
expected agreement is 0, and indeed the computation does not fail. -/
theorem fleiss_pi_error_iff_aE_one_witness :
    (fleiss_pi_linear [[[2]], [[2]]] ⟨some false⟩ =
        Except.error PyError.divisionByZero ↔ aESpec [[[2]], [[2]]] = 1) ∧
    (aESpec [[[2]], [[2]]] ≠ 1 →
      fleiss_pi_linear [[[2]], [[2]]] ⟨some false⟩ =
        Except.ok (Sum.inl ((aASpec [[[2]], [[2]]] - aESpec [[[2]], [[2]]]) /
          ((1 : ℚ) - aESpec [[[2]], [[2]]])))) :=
  fleiss_pi_error_iff_aE_one [[[2]], [[2]]]
    (by decide) (by decide) (by decide) (by decide) (by decide)

/-- C10: calling the Pi metric function with keyword arguments lacking the
key return_parts fails at once with the missing-key error, for every dataset
whatsoever, in particular before the shape validation and before any numeric
work: the key is mandatory at this interface. -/
theorem fleiss_pi_missing_return_parts (d : Dataset) :
    fleiss_pi_linear d ⟨none⟩ = Except.error (PyError.keyError "return_parts") := rfl

/-- Binding a throw in the Except monad yields the error. -/
theorem exceptThrowBind {α β : Type} (e : PyError) (f : α → Except PyError β) :
    (throw e : Except PyError α) >>= f = Except.error e := rfl

/-- A position sequence obtained from masses has as many units as the masses
sum to. -/
theorem massesToPositions_length (m : List ℕ) :
    (massesToPositions m).length = m.sum := by
  simp only [massesToPositions, List.length_flatten, List.map_map]
  have h : (List.length ∘ fun im : ℕ × ℕ => List.replicate im.2 (im.1 + 1)) =
      Prod.snd := by
    funext im
    simp
  rw [h, List.enum_map_snd]

/-- The window mismatch count is at most the number of window offsets. -/
theorem windowMismatch_le (u : List (ℕ × ℕ)) (w : ℕ) :
    windowMismatch u w ≤ u.length + 1 - w := by
  calc windowMismatch u w ≤ (List.range (u.length + 1 - w)).length :=
        List.countP_le_length _
    _ = u.length + 1 - w := List.length_range _

/-- C7: whenever the two inputs disagree in length after the optional
mass-to-position conversion, `window_diff` fails with the segmentation
length mismatch error; this holds for every window size (also those that
would later make the final division fail), so the check precedes all window
work. -/
theorem window_diff_length_mismatch (h r : List ℕ) (ws : Option ℕ) (om fix : Bool) :
    (h.length ≠ r.length →
      window_diff h r ws om fix false = Except.error (PyError.segmentationMetricError
        "Reference and hypothesis segmentations differ in length.")) ∧
    ((∀ m ∈ r, m ≠ 0) → (∀ m ∈ h, m ≠ 0) → h.sum ≠ r.sum →
      window_diff h r ws om fix true = Except.error (PyError.segmentationMetricError
        "Reference and hypothesis segmentations differ in length.")) := by
  constructor
  · intro hne
    simp only [window_diff, Bool.false_eq_true, if_false, ite_false, windowDiffPositions]
    rw [if_pos (fun hc => hne hc.symm)]
    rfl
  · intro hr hh hsum
    have hcr : convert_masses_to_positions r = Except.ok (massesToPositions r) := by
      unfold convert_masses_to_positions
      rw [if_neg]
      · rfl
      · simp only [List.any_eq_true, decide_eq_true_eq, not_exists]
        intro m hc
        exact hr m hc.1 hc.2
    have hch : convert_masses_to_positions h = Except.ok (massesToPositions h) := by
      unfold convert_masses_to_positions
      rw [if_neg]
      · rfl
      · simp only [List.any_eq_true, decide_eq_true_eq, not_exists]
        intro m hc
        exact hh m hc.1 hc.2
    simp only [window_diff, if_true, ite_true, hcr, hch, exceptBindOk, windowDiffPositions]
    rw [if_pos]
    · rfl
    · rw [massesToPositions_length, massesToPositions_length]
      exact fun hc => hsum hc.symm

/-- Witness for C7: masses of unequal total on the conversion path, and raw
positions of unequal length. -/
theorem window_diff_length_mismatch_witness :
    window_diff [3] [2] none false false true =
      Except.error (PyError.segmentationMetricError
        "Reference and hypothesis segmentations differ in length.") :=
  (window_diff_length_mismatch [3] [2] none false false).2
    (by decide) (by decide) (by decide)

/-- C8 as amended: `window_diff` performs no window-size validation.  A
window size of zero returns the numeric score 0 rather than failing, and the
only failing size with the fix disabled is exactly the reference length plus
one, which raises the bare division-by-zero error rather than a
configuration error. -/
theorem window_diff_no_size_validation :
    (∀ (h r : List ℕ) (om : Bool), h.length = r.length →
      window_diff h r (some (r.length + 1)) om false false =
        Except.error PyError.divisionByZero) ∧
    (∀ (h r : List ℕ), h.length = r.length →
      window_diff h r (some 0) false false false = Except.ok 0) := by
  constructor
  · intro h r om hlen
    simp only [window_diff, Bool.false_eq_true, if_false, ite_false, windowDiffPositions]
    rw [if_neg (fun hc => hc hlen.symm)]
    rw [if_pos (by push_cast; ring)]
    rfl
  · intro h r hlen
    simp only [window_diff, Bool.false_eq_true, if_false, ite_false, windowDiffPositions]
    rw [if_neg (fun hc => hc hlen.symm)]
    have hsd : windowMismatch (r.zip h) 0 = 0 := by
      apply List.countP_eq_zero.mpr
      intro i _
      simp [List.take_zero, countBoundaries, boundaries]
    rw [if_neg (by push_cast; omega)]
    simp only [exceptPureBind, hsd, Bool.false_eq_true, if_false, ite_false]
    norm_num
    rfl

/-- Counterexample to C8 as stated: an explicit window size of 0 (the only
representable size at or below zero) does not fail with any error; it
returns the numeric score 0. -/
theorem window_diff_ws_zero_returns_score :
    window_diff [1,1] [1,1] (some 0) false false false = Except.ok 0 := by
  have h : window_diff [1,1] [1,1] (some 0) false false false =
      Except.ok ((0 : ℚ) / 3) := rfl
  rw [h]
  norm_num

/-- Witness for the amended C8: on two-unit sequences, window size 3 fails
with the division error and window size 0 returns 0. -/
theorem window_diff_no_size_validation_witness :
    window_diff [1,2] [1,1] (some 3) false false false =
        Except.error PyError.divisionByZero ∧
      window_diff [1,2] [1,1] (some 0) false false false = Except.ok 0 :=
  ⟨window_diff_no_size_validation.1 [1,2] [1,1] false rfl,
    window_diff_no_size_validation.2 [1,2] [1,1] rfl⟩

/-- Binding an error in the Except monad stays the error. -/
theorem exceptErrorBind {α β : Type} (e : PyError) (f : α → Except PyError β) :
    (Except.error e : Except PyError α) >>= f = Except.error e := rfl

/-- Any value returned by the positional WindowDiff computation with the
one-minus flag off and the edge fix off lies in the unit interval. -/
theorem windowDiffPositions_bounds (hp rp : List ℕ) (ws : Option ℕ) (q : ℚ)
    (hok : windowDiffPositions hp rp ws false false = Except.ok q) :
    0 ≤ q ∧ q ≤ 1 := by
  unfold windowDiffPositions at hok
  by_cases hlen : rp.length ≠ hp.length
  · rw [if_pos hlen, exceptThrowBind] at hok
    exact absurd hok (fun hc => Except.noConfusion hc)
  rw [if_neg hlen, exceptPureBind] at hok
  push_neg at hlen
  simp only [Bool.false_eq_true, if_false, ite_false] at hok
  set w := (match ws with
    | some w => w
    | none => compute_window_size rp) with hw
  by_cases hD : ((rp.length : ℤ) + 1 + 0) - (w : ℤ) = 0
  · rw [if_pos hD, exceptThrowBind] at hok
    exact absurd hok (fun hc => Except.noConfusion hc)
  rw [if_neg hD, exceptPureBind] at hok
  have hq : (windowMismatch (rp.zip hp) w : ℚ) /
      ((((rp.length : ℤ) + 1 + 0) - (w : ℤ) : ℤ) : ℚ) = q := Except.ok.inj hok
  have hzip : (rp.zip hp).length = rp.length := by
    rw [List.length_zip, hlen, min_self]
  have hsd := windowMismatch_le (rp.zip hp) w
  rw [hzip] at hsd
  rcases le_or_lt w rp.length with hwle | hwlt
  · have hDposZ : (0 : ℤ) < ((rp.length : ℤ) + 1 + 0) - (w : ℤ) := by omega
    have hDpos : (0 : ℚ) < ((((rp.length : ℤ) + 1 + 0) - (w : ℤ) : ℤ) : ℚ) := by
      exact_mod_cast hDposZ
    constructor
    · rw [← hq]
      exact div_nonneg (by positivity) (le_of_lt hDpos)
    · rw [← hq]
      rw [div_le_one hDpos]
      have : (windowMismatch (rp.zip hp) w : ℚ) ≤ ((rp.length + 1 - w : ℕ) : ℚ) := by
        exact_mod_cast hsd
      calc (windowMismatch (rp.zip hp) w : ℚ) ≤ ((rp.length + 1 - w : ℕ) : ℚ) := this
        _ = (((rp.length : ℤ) + 1 + 0) - (w : ℤ) : ℤ) := by
            push_cast [Nat.cast_sub (by omega : w ≤ rp.length + 1)]
            ring
  · have hsd0 : windowMismatch (rp.zip hp) w = 0 := by omega
    rw [hsd0] at hq
    rw [← hq]
    norm_num

/-- C5 as amended: with the Lamprier et al. 2007 fix disabled and the
one-minus flag off, every value `window_diff` returns lies in the closed unit
interval, for all inputs, window sizes (explicit or computed) and conversion
settings.  With the fix enabled the bound fails, as the separate
counterexample shows. -/
theorem window_diff_bounds (h r : List ℕ) (ws : Option ℕ) (conv : Bool) (q : ℚ)
    (hok : window_diff h r ws false false conv = Except.ok q) :
    0 ≤ q ∧ q ≤ 1 := by
  unfold window_diff at hok
  cases conv with
  | false =>
    simp only [Bool.false_eq_true, if_false, ite_false] at hok
    exact windowDiffPositions_bounds h r ws q hok
  | true =>
    simp only [if_true, ite_true] at hok
    cases hr : convert_masses_to_positions r with
    | error e =>
      rw [hr, exceptErrorBind] at hok
      exact absurd hok (fun hc => Except.noConfusion hc)
    | ok rp =>
      rw [hr, exceptBindOk] at hok
      cases hh : convert_masses_to_positions h with
      | error e =>
        rw [hh, exceptErrorBind] at hok
        exact absurd hok (fun hc => Except.noConfusion hc)
      | ok hp =>
        rw [hh, exceptBindOk] at hok
        exact windowDiffPositions_bounds hp rp ws q hok

/-- Witness for the amended C5: a concrete run returning the extreme value 1
satisfies the bounds. -/
theorem window_diff_bounds_witness : (0 : ℚ) ≤ 1 ∧ (1 : ℚ) ≤ 1 :=
  window_diff_bounds [1,2] [1,1] (some 2) false 1 (by
    have hv : window_diff [1,2] [1,1] (some 2) false false false =
        Except.ok ((1 : ℚ) / 1) := rfl
    rw [hv]
    norm_num)

/-- Counterexample to C5 as stated: with the Lamprier et al. 2007 fix
enabled, window size 4 on the three-unit sequences [1,1,1] (reference, one
segment) and [1,2,3] (hypothesis, three segments) yields 4/3, which exceeds
1: the claimed [0, 1] bound does not cover every configuration. -/
theorem window_diff_exceeds_one_with_fix :
    window_diff [1,2,3] [1,1,1] (some 4) false true false =
        Except.ok ((4 : ℚ) / 3) ∧
      ¬((4 : ℚ) / 3 ≤ 1) := by
  constructor
  · rfl
  · norm_num

/-- Boolean disequality of naturals is symmetric. -/
theorem natBneComm (a b : ℕ) : (a != b) = (b != a) := by
  by_cases h : a = b
  · subst h
    rfl
  · have h1 : (a != b) = true := bne_iff_ne.mpr h
    have h2 : (b != a) = true := bne_iff_ne.mpr (Ne.symm h)
    rw [h1, h2]

/-- Swapping the two components of every unit pair leaves the window
mismatch count unchanged: the comparison of per-window boundary counts is
order independent. -/
theorem windowMismatch_swap (u : List (ℕ × ℕ)) (w : ℕ) :
    windowMismatch (u.map Prod.swap) w = windowMismatch u w := by
  unfold windowMismatch
  rw [List.length_map]
  apply List.countP_congr
  intro i _
  have hwin : ((u.map Prod.swap).drop i).take w = ((u.drop i).take w).map Prod.swap := by
    simp
  rw [hwin]
  have h1 : (((u.drop i).take w).map Prod.swap).map Prod.fst =
      ((u.drop i).take w).map Prod.snd := by
    rw [List.map_map]
    rfl
  have h2 : (((u.drop i).take w).map Prod.swap).map Prod.snd =
      ((u.drop i).take w).map Prod.fst := by
    rw [List.map_map]
    rfl
  simp only [h1, h2]
  rw [natBneComm]

/-- The only error the mass-to-position conversion can raise is the
malformed-segmentation error. -/
theorem convert_error_eq (m : List ℕ) (e : PyError)
    (h : convert_masses_to_positions m = Except.error e) :
    e = PyError.malformedSegmentationError := by
  unfold convert_masses_to_positions at h
  by_cases hc : (m.any fun x => x = 0) = true
  · rw [if_pos hc] at h
    exact (Except.error.inj h).symm
  · rw [if_neg hc] at h
    exact absurd h (fun hx => Except.noConfusion hx)

/-- Zipping two sequences in either order yields the same window mismatch
count. -/
theorem windowMismatch_zip_comm (a b : List ℕ) (w : ℕ) :
    windowMismatch (a.zip b) w = windowMismatch (b.zip a) w := by
  conv_lhs => rw [← List.zip_swap b a]
  exact windowMismatch_swap _ _

/-- Closed form of the positional computation with an explicit window size
once the length check passes: either the division error, or the final
score. -/
theorem windowDiffPositions_closed (hp rp : List ℕ) (w : ℕ) (om fix : Bool)
    (hlen : rp.length = hp.length) :
    windowDiffPositions hp rp (some w) om fix =
      (if ((rp.length : ℤ) + 1 + (if fix then (w : ℤ) - 1 else 0)) - (w : ℤ) = 0 then
        Except.error PyError.divisionByZero
      else
        pure (if om then
          (1 : ℚ) - (windowMismatch (if fix then
              (List.replicate (w - 1) 0 ++ rp ++ List.replicate (w - 1) 0).zip
                (List.replicate (w - 1) 0 ++ hp ++ List.replicate (w - 1) 0)
            else rp.zip hp) w : ℚ) /
            ((((rp.length : ℤ) + 1 + (if fix then (w : ℤ) - 1 else 0)) - (w : ℤ) : ℤ) : ℚ)
          else
          (windowMismatch (if fix then
              (List.replicate (w - 1) 0 ++ rp ++ List.replicate (w - 1) 0).zip
                (List.replicate (w - 1) 0 ++ hp ++ List.replicate (w - 1) 0)
            else rp.zip hp) w : ℚ) /
            ((((rp.length : ℤ) + 1 + (if fix then (w : ℤ) - 1 else 0)) - (w : ℤ) : ℤ) : ℚ))) := by
  simp only [windowDiffPositions]
  rw [if_neg (fun hc => hc hlen), exceptPureBind]
  by_cases hD : ((rp.length : ℤ) + 1 + (if fix = true then (w : ℤ) - 1 else 0)) - (w : ℤ) = 0
  · rw [if_pos hD, exceptThrowBind, if_pos hD]
  · rw [if_neg hD, exceptPureBind, if_neg hD]

/-- The positional WindowDiff computation with an explicit window size is
symmetric in its two sequences. -/
theorem windowDiffPositions_symm (hp rp : List ℕ) (w : ℕ) (om fix : Bool) :
    windowDiffPositions hp rp (some w) om fix =
      windowDiffPositions rp hp (some w) om fix := by
  by_cases hlen : rp.length = hp.length
  · rw [windowDiffPositions_closed hp rp w om fix hlen,
      windowDiffPositions_closed rp hp w om fix hlen.symm]
    cases fix with
    | false =>
      simp only [Bool.false_eq_true, if_false, ite_false]
      rw [windowMismatch_zip_comm rp hp w, hlen]
    | true =>
      simp only [if_true, ite_true]
      rw [windowMismatch_zip_comm
        (List.replicate (w - 1) 0 ++ rp ++ List.replicate (w - 1) 0)
        (List.replicate (w - 1) 0 ++ hp ++ List.replicate (w - 1) 0) w, hlen]
  · unfold windowDiffPositions
    rw [if_pos hlen, exceptThrowBind, if_pos (fun hc => hlen hc.symm), exceptThrowBind]

/-- C9 as amended: with an explicitly specified window size (the same value
in both calls), `window_diff` is symmetric in its two position sequences,
for every one-minus, fix and conversion setting; when the window size is
left unspecified it is computed from the reference argument and symmetry can
fail, as the separate counterexample shows. -/
theorem window_diff_symm_explicit (h r : List ℕ) (w : ℕ) (om fix conv : Bool) :
    window_diff h r (some w) om fix conv = window_diff r h (some w) om fix conv := by
  unfold window_diff
  cases conv with
  | false =>
    simp only [Bool.false_eq_true, if_false, ite_false]
    exact windowDiffPositions_symm h r w om fix
  | true =>
    simp only [if_true, ite_true]
    cases hr : convert_masses_to_positions r with
    | error e =>
      cases hh : convert_masses_to_positions h with
      | error e2 =>
        simp only [hr, hh, exceptErrorBind, exceptBindOk]
        rw [convert_error_eq r e hr, convert_error_eq h e2 hh]
      | ok hp =>
        simp only [hr, hh, exceptErrorBind, exceptBindOk]
    | ok rp =>
      cases hh : convert_masses_to_positions h with
      | error e2 =>
        simp only [hr, hh, exceptErrorBind, exceptBindOk]
      | ok hp =>
        simp only [hr, hh, exceptErrorBind, exceptBindOk]
        exact windowDiffPositions_symm hp rp w om fix

/-- Counterexample to C9 as stated: with the window size left unspecified it
is computed from the reference argument, so swapping a one-segment reference
of twelve units with a six-segment hypothesis changes the window size from 6
to 2 and the score from 1 to 5/11: `window_diff` is not symmetric when the
window size is defaulted. -/
theorem window_diff_asymmetric_default_window :
    window_diff [1,1,2,2,3,3,4,4,5,5,6,6] [1,1,1,1,1,1,1,1,1,1,1,1]
        none false false false ≠
      window_diff [1,1,1,1,1,1,1,1,1,1,1,1] [1,1,2,2,3,3,4,4,5,5,6,6]
        none false false false := by
  have h1 : window_diff [1,1,2,2,3,3,4,4,5,5,6,6] [1,1,1,1,1,1,1,1,1,1,1,1]
      none false false false = Except.ok ((7 : ℚ) / 7) := rfl
  have h2 : window_diff [1,1,1,1,1,1,1,1,1,1,1,1] [1,1,2,2,3,3,4,4,5,5,6,6]
      none false false false = Except.ok ((5 : ℚ) / 11) := rfl
  rw [h1, h2]
  intro hc
  have hq := Except.ok.inj hc
  norm_num at hq

/-- The boundary sequence of the tail is the tail of the boundary
sequence. -/
theorem boundaries_tail (l : List ℕ) : boundaries l.tail = (boundaries l).tail := by
  match l with
  | [] => rfl
  | [x] => rfl
  | x :: y :: r => rfl

/-- Dropping units commutes with taking the boundary sequence. -/
theorem boundaries_drop (l : List ℕ) (i : ℕ) :
    boundaries (l.drop i) = (boundaries l).drop i := by
  induction i generalizing l with
  | zero => rfl
  | succ n ih =>
    rw [← List.tail_drop, boundaries_tail, ih, List.tail_drop]

/-- Taking w + 1 units keeps exactly the first w boundary positions. -/
theorem boundaries_take (l : List ℕ) (w : ℕ) :
    boundaries (l.take (w + 1)) = (boundaries l).take w := by
  induction l generalizing w with
  | nil => simp [boundaries]
  | cons x t ih =>
    cases t with
    | nil =>
      cases w with
      | zero => rfl
      | succ v => rfl
    | cons y r =>
      cases w with
      | zero => rfl
      | succ v =>
        show (x != y) :: boundaries ((y :: r).take (v + 1)) =
          (x != y) :: (boundaries (y :: r)).take v
        rw [ih v]

/-- The boundary count of a window of w units, cut out of a position
sequence at offset i, is the number of boundary indicators in the
corresponding slice of w - 1 boundary positions. -/
theorem countBoundaries_slice (p : List ℕ) (i w : ℕ) (hw : 1 ≤ w) :
    countBoundaries ((p.drop i).take w) =
      (((boundaries p).drop i).take (w - 1)).count true := by
  obtain ⟨v, rfl⟩ : ∃ v, w = v + 1 := ⟨w - 1, by omega⟩
  unfold countBoundaries
  rw [boundaries_take (p.drop i) v, boundaries_drop p i]
  simp

/-- On equal-length sequences the window loop of the code computes exactly
the boundary-indicator mismatch count of the claim. -/
theorem windowMismatch_eq_spec (a b : List ℕ) (ws : ℕ) (hws : 1 ≤ ws)
    (hlen : a.length = b.length) :
    windowMismatch (a.zip b) ws = specMismatchCount a b ws := by
  unfold windowMismatch specMismatchCount
  have hz : (a.zip b).length = a.length := by
    rw [List.length_zip, hlen, min_self, ← hlen]
  rw [hz]
  apply List.countP_congr
  intro i _
  have hfst : (((a.zip b).drop i).take ws).map Prod.fst = (a.drop i).take ws := by
    rw [List.map_take, List.map_drop, List.map_fst_zip a b (le_of_eq hlen)]
  have hsnd : (((a.zip b).drop i).take ws).map Prod.snd = (b.drop i).take ws := by
    rw [List.map_take, List.map_drop, List.map_snd_zip a b (le_of_eq hlen.symm)]
  simp only [hfst, hsnd, countBoundaries_slice a i ws hws,
    countBoundaries_slice b i ws hws]

/-- A constant-label run contains no boundary. -/
theorem countBoundaries_replicate (k v : ℕ) :
    countBoundaries (List.replicate k v) = 0 := by
  induction k with
  | zero => rfl
  | succ n ih =>
    cases n with
    | zero => rfl
    | succ m =>
      have h2 : countBoundaries (List.replicate (m + 2) v) =
          countBoundaries (List.replicate (m + 1) v) := by
        show ((v != v) :: boundaries (List.replicate (m + 1) v)).count true =
          (boundaries (List.replicate (m + 1) v)).count true
        rw [bne_self_eq_false]
        exact List.count_cons_of_ne (by decide) _
      rw [h2]
      exact ih

/-- C2: for equal-length position sequences and an explicit window size,
`window_diff` returns mismatch count over (n minus window size), with n the
reference length plus one, plus the padding length (window size minus one)
when the Lamprier et al. 2007 fix is applied; under the fix both sequences
are padded on both ends with window-size-minus-one sentinel units, and the
sentinel run itself registers no boundary. -/
theorem window_diff_formula (h r : List ℕ) (w : ℕ) (hw : 1 ≤ w)
    (hlen : h.length = r.length) :
    ((r.length : ℤ) + 1 ≠ (w : ℤ) →
      window_diff h r (some w) false false false =
        Except.ok ((specMismatchCount r h w : ℚ) / ((r.length : ℚ) + 1 - (w : ℚ)))) ∧
    (r ≠ [] →
      window_diff h r (some w) false true false =
        Except.ok ((specMismatchCount (padded w r) (padded w h) w : ℚ) /
          ((r.length : ℚ) + 1 + ((w : ℚ) - 1) - (w : ℚ)))) ∧
    countBoundaries (sentinelPad w) = 0 := by
  have hwd : ∀ fix : Bool, window_diff h r (some w) false fix false =
      windowDiffPositions h r (some w) false fix := by
    intro fix
    simp only [window_diff, Bool.false_eq_true, if_false, ite_false]
  refine ⟨?_, ?_, countBoundaries_replicate (w - 1) 0⟩
  · intro hne
    rw [hwd false, windowDiffPositions_closed h r w false false hlen.symm]
    simp only [Bool.false_eq_true, if_false, ite_false]
    rw [if_neg (by intro hc; apply hne; omega)]
    rw [windowMismatch_eq_spec r h w hw hlen.symm]
    have hden : ((((r.length : ℤ) + 1 + 0) - (w : ℤ) : ℤ) : ℚ) =
        (r.length : ℚ) + 1 - (w : ℚ) := by
      push_cast
      ring
    rw [hden]
    rfl
  · intro hr0
    rw [hwd true, windowDiffPositions_closed h r w false true hlen.symm]
    simp only [if_true, ite_true]
    have hL : r.length ≠ 0 := fun hc => hr0 (List.length_eq_zero.mp hc)
    rw [if_neg (by intro hc; apply hL; omega)]
    have hplen : (padded w r).length = (padded w h).length := by
      simp [padded, sentinelPad, hlen]
    simp only [padded, sentinelPad] at hplen ⊢
    rw [windowMismatch_eq_spec _ _ w hw hplen]
    have hden : ((((r.length : ℤ) + 1 + ((w : ℤ) - 1)) - (w : ℤ) : ℤ) : ℚ) =
        (r.length : ℚ) + 1 + ((w : ℚ) - 1) - (w : ℚ) := by
      push_cast
      ring
    rw [hden]
    rfl

/-- Witness for C2: hypothesis [1,2] against reference [1,1] with window
size 2, in both the plain and the padded (fix) configuration. -/
theorem window_diff_formula_witness :
    window_diff [1,2] [1,1] (some 2) false false false =
        Except.ok ((specMismatchCount [1,1] [1,2] 2 : ℚ) /
          (([1,1] : List ℕ).length + 1 - (2 : ℚ))) ∧
      window_diff [1,2] [1,1] (some 2) false true false =
        Except.ok ((specMismatchCount (padded 2 [1,1]) (padded 2 [1,2]) 2 : ℚ) /
          (([1,1] : List ℕ).length + 1 + ((2 : ℚ) - 1) - (2 : ℚ))) :=
  ⟨(window_diff_formula [1,2] [1,1] 2 (by decide) rfl).1 (by decide),
    (window_diff_formula [1,2] [1,1] 2 (by decide) rfl).2.1 (by decide)⟩
